import Mathlib

/-!
# dynamic-mem-alloc-demo: `main.cc`

A shallow embedding of `src/main.cc`: the two functions `LoadImage` and `main`, run over an
explicit world (unread standard input, bytes written by the program, the sequence of
collaborator events, the handles whose destructor has run, resources currently held).

The class `Image` comes from `image.h`, which is not part of the sources at hand.  Its
constructor and its `Display` member are therefore parameters of the embedding (`ImageLib`):
every theorem about `LoadImage` and `main` holds for every such library.  A C++ exception is
the `Except.error` result; an exception that leaves `main` is the result `Except.error` of
`main`.  `main.cc` has no handler, so such an exception ends the run in `std::terminate`
with the stack as it stands at the throw: no destructor of a live local object runs.
-/

namespace DynamicMemAllocDemo

/-! ## Data model -/

/-- The collaborator events of one run, in the order the statements of `main.cc` cause them. -/
inductive Event (H : Type) where
  /-- one `std::cout << s` -/
  | write (s : String)
  /-- one `std::cin >> filename`; `tok` is the value of `filename` afterwards -/
  | read (tok : String)
  /-- one `Image my_image{p}` -/
  | construct (p : String)
  /-- one `my_image.Display()` on the handle `h` -/
  | display (h : H)
  deriving DecidableEq

/-- The class `Image` of `image.h`, as far as `main.cc` uses it.  `construct` is the
constructor `Image(const std::string&)`, `display` the member `Display()`; either may throw
(`Except.error`).  `resources h` are the file handles and buffers a constructed handle owns.
A run calls each at most once, so the file system and the display surface are fixed inside
these functions. -/
structure ImageLib (ε H R : Type) where
  construct : String → Except ε H
  display : H → Except ε Unit
  resources : H → List R

/-- The state a run of the program acts on. -/
structure World (H R : Type) where
  /-- the unread rest of standard input -/
  input : List Char
  /-- the bytes the statements of `main.cc` have written to `std::cout` -/
  out : String
  /-- the collaborator events so far -/
  trace : List (Event H)
  /-- the resources held by live `Image` objects -/
  held : List R
  /-- the handles whose destructor `~Image` has run, in order -/
  destroyed : List H

/-- The world at program start: `input` on standard input, nothing written, nothing held. -/
def World.init {H R : Type} (input : List Char) : World H R :=
  { input := input, out := "", trace := [], held := [], destroyed := [] }

/-! ## Standard input: `std::cin >> filename` -/

/-- The function `isspace` of the "C" locale, the locale of `std::cin` at program start: space,
`\t`, `\n`, `\v`, `\f`, `\r`. -/
def isspace (c : Char) : Bool :=
  c == ' ' || c == '\t' || c == '\n' || c == Char.ofNat 11 || c == Char.ofNat 12 || c == '\r'

/-- The sentry of a formatted input function with `skipws` set: consumes leading whitespace. -/
def skipws : List Char → List Char
  | [] => []
  | c :: cs => if isspace c then skipws cs else c :: cs

/-- The extraction loop of `operator>>(istream&, string&)`: characters are appended until end
of input or until the next character is whitespace, which stays unread.  Returns the
characters stored and the unread rest. -/
def extract : List Char → List Char × List Char
  | [] => ([], [])
  | c :: cs => if isspace c then ([], c :: cs) else ((extract cs).1.cons c, (extract cs).2)

/-- The call `std::cin >> str` on a good stream whose unread input is `input`
(`width()` is 0 and the input is shorter than `max_size()`).  When the sentry meets end of
input the string is left as it was; otherwise it is erased and filled by `extract`. -/
def readString (str : String) (input : List Char) : String × List Char :=
  match skipws input with
  | [] => (str, [])
  | c :: cs => (String.mk (extract (c :: cs)).1, (extract (c :: cs)).2)

/-- The first whitespace-delimited token of an input, in the words of the specification:
leading whitespace is skipped and the token ends before the next whitespace character or at
the end of input. -/
def firstToken (input : List Char) : List Char :=
  (input.dropWhile isspace).takeWhile (fun c => !isspace c)

/-! ## `main.cc` -/

/-- The string literal of line 13. -/
def prompt : String := "Please enter image filename: "

/-- Modelled from the spec: the destructor of `Image` (`image.h` is absent).  It releases
the resources the handle owns ("destroyed (resources released) when the scope exits, whether
display succeeded or not"). -/
def Image.release {ε H R : Type} [DecidableEq R] (lib : ImageLib ε H R) (h : H)
    (w : World H R) : World H R :=
  { w with held := w.held.diff (lib.resources h) }

/-- Modelled from the spec: what the constructor of `Image` does to the resources held
(`image.h` is absent).  A successful construction acquires the resources of the handle; a
failed one leaves nothing acquired ("there is no partially-constructed visible state"). -/
def Image.acquire {ε H R : Type} (lib : ImageLib ε H R) (h : H) (w : World H R) : World H R :=
  { w with held := lib.resources h ++ w.held }

/-- The function `LoadImage` (lines 5-8).  `Image my_image{filename};` then
`my_image.Display();`.  `my_image` is a local object: its destructor runs at the closing
brace.  An exception from the constructor leaves the function before the object exists.  An
exception from `Display` meets no handler in `LoadImage` nor in its only caller `main`: the
run ends in `std::terminate` without unwinding the stack (as g++ and clang do), so
`~Image` does not run and the world stays as `Display` left it. -/
def LoadImage {ε H R : Type} [DecidableEq R] (lib : ImageLib ε H R) (filename : String)
    (w : World H R) : Except ε Unit × World H R :=
  let w1 := { w with trace := w.trace ++ [Event.construct filename] }
  match lib.construct filename with
  | .error e => (.error e, w1)
  | .ok my_image =>
    let w2 := Image.acquire lib my_image w1
    let w3 := { w2 with trace := w2.trace ++ [Event.display my_image] }
    match lib.display my_image with
    | .error e => (.error e, w3)
    | .ok _ =>
      (.ok (), Image.release lib my_image { w3 with destroyed := w3.destroyed ++ [my_image] })

/-- The function `main` (lines 11-17).  The result `.ok v` is `return v`; `.error e` is the
exception `e` leaving `main`. -/
def main {ε H R : Type} [DecidableEq R] (lib : ImageLib ε H R) (w : World H R) :
    Except ε Int × World H R :=
  let filename : String := ""
  let w1 := { w with out := w.out ++ prompt, trace := w.trace ++ [Event.write prompt] }
  let r := readString filename w1.input
  let filename := r.1
  let w2 := { w1 with input := r.2, trace := w1.trace ++ [Event.read filename] }
  match LoadImage lib filename w2 with
  | (.error e, w3) => (.error e, w3)
  | (.ok _, w3) => (.ok 0, w3)

/-! ## Observations on a trace -/

/-- The handles of the `Display` calls of a trace, in order. -/
def displayCalls {H : Type} : List (Event H) → List H
  | [] => []
  | Event.display h :: t => h :: displayCalls t
  | _ :: t => displayCalls t

/-- The paths handed to the `Image` constructor in a trace, in order. -/
def constructCalls {H : Type} : List (Event H) → List String
  | [] => []
  | Event.construct p :: t => p :: constructCalls t
  | _ :: t => constructCalls t

/-- The strings of the writes of a trace, in order. -/
def writeCalls {H : Type} : List (Event H) → List String
  | [] => []
  | Event.write s :: t => s :: writeCalls t
  | _ :: t => writeCalls t

/-! ## A fixture -/

/-- The single error kind of the specification. -/
inductive LoadError where
  | loadError
  deriving DecidableEq

/-- A fixture library: `photo.png` is the one decodable file, every other path fails to load;
a handle is its path and owns a file handle (0) and a decode buffer (1). -/
def fixture : ImageLib LoadError String Nat where
  construct := fun p => if p = "photo.png" then .ok p else .error LoadError.loadError
  display := fun _ => .ok ()
  resources := fun _ => [0, 1]

section Aux
variable {ε H R : Type} [DecidableEq R]

theorem diff_append_self (rs l : List R) : (rs ++ l).diff rs = l := by
  induction rs with
  | nil => simp
  | cons a rs ih => simp [List.diff_cons, ih]

theorem skipws_eq_dropWhile (l : List Char) : skipws l = l.dropWhile isspace := by
  induction l with
  | nil => rfl
  | cons c cs ih =>
    by_cases hc : isspace c = true
    · simp [skipws, List.dropWhile, hc, ih]
    · simp [skipws, List.dropWhile, hc]

theorem extract_fst (l : List Char) : (extract l).1 = l.takeWhile (fun c => !isspace c) := by
  induction l with
  | nil => rfl
  | cons c cs ih =>
    by_cases hc : isspace c = true
    · simp [extract, List.takeWhile, hc]
    · simp [extract, List.takeWhile, hc, ih]

theorem extract_snd (l : List Char) : (extract l).2 = l.dropWhile (fun c => !isspace c) := by
  induction l with
  | nil => rfl
  | cons c cs ih =>
    by_cases hc : isspace c = true
    · simp [extract, List.dropWhile, hc]
    · simp [extract, List.dropWhile, hc, ih]

/-- The world in which `main` calls `LoadImage`. -/
theorem main_snd (lib : ImageLib ε H R) (w : World H R) :
    (main lib w).2 = (LoadImage lib (readString "" w.input).1
      { w with out := w.out ++ prompt, input := (readString "" w.input).2,
               trace := w.trace ++ [Event.write prompt] ++ [Event.read (readString "" w.input).1] }).2 := by
  unfold main
  simp only
  split <;> simp_all

theorem main_fst (lib : ImageLib ε H R) (w : World H R) :
    (main lib w).1 = match (LoadImage lib (readString "" w.input).1
      { w with out := w.out ++ prompt, input := (readString "" w.input).2,
               trace := w.trace ++ [Event.write prompt] ++ [Event.read (readString "" w.input).1] }).1 with
      | .error e => .error e
      | .ok _ => .ok 0 := by
  unfold main
  simp only
  split <;> simp_all

theorem LoadImage_construct_error (lib : ImageLib ε H R) (P : String) (w : World H R) (e : ε)
    (hfail : lib.construct P = .error e) :
    LoadImage lib P w = (.error e, { w with trace := w.trace ++ [Event.construct P] }) := by
  simp [LoadImage, hfail]

theorem LoadImage_display_error (lib : ImageLib ε H R) (P : String) (w : World H R) (h : H) (e : ε)
    (hc : lib.construct P = .ok h) (hd : lib.display h = .error e) :
    LoadImage lib P w = (.error e, { w with trace := w.trace ++ [Event.construct P, Event.display h],
                                            held := lib.resources h ++ w.held }) := by
  simp [LoadImage, hc, hd, Image.acquire]

theorem LoadImage_ok (lib : ImageLib ε H R) (P : String) (w : World H R) (h : H)
    (hc : lib.construct P = .ok h) (hd : lib.display h = .ok ()) :
    LoadImage lib P w = (.ok (), { w with trace := w.trace ++ [Event.construct P, Event.display h],
                                          destroyed := w.destroyed ++ [h] }) := by
  simp [LoadImage, hc, hd, Image.release, Image.acquire, diff_append_self]

theorem displayCalls_append (s t : List (Event H)) :
    displayCalls (s ++ t) = displayCalls s ++ displayCalls t := by
  induction s with
  | nil => rfl
  | cons a s ih => cases a <;> simp [displayCalls, ih]

theorem writeCalls_append (s t : List (Event H)) :
    writeCalls (s ++ t) = writeCalls s ++ writeCalls t := by
  induction s with
  | nil => rfl
  | cons a s ih => cases a <;> simp [writeCalls, ih]

theorem readString_token (str : String) (input : List Char)
    (hne : ∃ c ∈ input, isspace c = false) :
    (readString str input).1 = String.mk (firstToken input) := by
  have hd : input.dropWhile isspace ≠ [] := by
    obtain ⟨c, hc, hs⟩ := hne
    intro hnil
    rw [List.dropWhile_eq_nil_iff] at hnil
    have := hnil c hc
    simp [hs] at this
  unfold readString firstToken
  rw [skipws_eq_dropWhile]
  cases hcs : input.dropWhile isspace with
  | nil => exact absurd hcs hd
  | cons c cs => simp [extract_fst]

theorem readString_blank (str : String) (input : List Char)
    (hblank : ∀ c ∈ input, isspace c = true) :
    readString str input = (str, []) := by
  have hd : input.dropWhile isspace = [] := by
    rw [List.dropWhile_eq_nil_iff]
    exact hblank
  unfold readString
  rw [skipws_eq_dropWhile, hd]

end Aux

/-! ## The claims -/

section Claims
variable {ε H R : Type} [DecidableEq R]

/-- C1: when constructing an `Image` from `P` throws, `LoadImage P` adds the one construction
event and no `Display` call, and `main` reading the token `P` performs no `Display` call at
all. -/
theorem no_display_after_failed_construction (lib : ImageLib ε H R) (P : String) (e : ε)
    (hfail : lib.construct P = .error e) :
    (∀ w : World H R,
      (LoadImage lib P w).2.trace = w.trace ++ [Event.construct P] ∧
      displayCalls (LoadImage lib P w).2.trace = displayCalls w.trace) ∧
    (∀ input : List Char, (readString "" input).1 = P →
      displayCalls (main lib (World.init input)).2.trace = []) := by
  refine ⟨fun w => ?_, fun input htok => ?_⟩
  · rw [LoadImage_construct_error lib P w e hfail]
    simp [displayCalls_append, displayCalls]
  · rw [main_snd]
    simp only [World.init, htok]
    rw [LoadImage_construct_error lib P _ e hfail]
    simp [displayCalls]

theorem no_display_after_failed_construction_witness :
    fixture.construct "missing.jpg" = .error LoadError.loadError ∧
    (readString "" "missing.jpg\n".toList).1 = "missing.jpg" ∧
    displayCalls (main fixture (World.init "missing.jpg\n".toList)).2.trace = [] :=
  ⟨rfl, rfl,
    (no_display_after_failed_construction fixture "missing.jpg" LoadError.loadError rfl).2
      "missing.jpg\n".toList rfl⟩

/-- C2: in every run of `main` the first event is the write of the prompt, the second the
read of the filename; the prompt is the 29-character string `Please enter image filename: `,
which ends in a space and holds no newline. -/
theorem prompt_written_before_read (lib : ImageLib ε H R) (input : List Char) :
    prompt = "Please enter image filename: " ∧ prompt.length = 29 ∧
    prompt.data.getLast? = some ' ' ∧ '\n' ∉ prompt.data ∧
    ∃ rest, (main lib (World.init input)).2.trace =
        Event.write prompt :: Event.read (readString "" input).1 :: rest ∧
      writeCalls rest = [] ∧ ∀ tok, Event.read tok ∉ rest := by
  refine ⟨rfl, rfl, rfl, by decide, ?_⟩
  rw [main_snd]
  simp only [World.init]
  cases hc : lib.construct (readString "" input).1 with
  | error e =>
    rw [LoadImage_construct_error lib _ _ e hc]
    exact ⟨[Event.construct (readString "" input).1], by simp, rfl, by simp⟩
  | ok h =>
    cases hd : lib.display h with
    | error e =>
      rw [LoadImage_display_error lib _ _ h e hc hd]
      exact ⟨[Event.construct (readString "" input).1, Event.display h], by simp, rfl, by simp⟩
    | ok u =>
      rw [LoadImage_ok lib _ _ h hc hd]
      exact ⟨[Event.construct (readString "" input).1, Event.display h], by simp, rfl, by simp⟩

/-- C3: when constructing an `Image` from `P` and displaying it both succeed, `LoadImage P`
constructs the handle, calls `Display` on it and returns without an error, and `main` reading
the token `P` returns 0. -/
theorem load_and_display_succeeds (lib : ImageLib ε H R) (P : String) (h : H)
    (hc : lib.construct P = .ok h) (hd : lib.display h = .ok ()) :
    (∀ w : World H R,
      (LoadImage lib P w).1 = .ok () ∧
      (LoadImage lib P w).2.trace = w.trace ++ [Event.construct P, Event.display h]) ∧
    (∀ input : List Char, (readString "" input).1 = P →
      (main lib (World.init input)).1 = .ok 0) := by
  refine ⟨fun w => ?_, fun input htok => ?_⟩
  · rw [LoadImage_ok lib P w h hc hd]
    exact ⟨rfl, rfl⟩
  · rw [main_fst]
    simp only [World.init, htok]
    rw [LoadImage_ok lib P _ h hc hd]

theorem load_and_display_succeeds_witness :
    fixture.construct "photo.png" = .ok "photo.png" ∧
    fixture.display "photo.png" = .ok () ∧
    (readString "" "photo.png\n".toList).1 = "photo.png" ∧
    (main fixture (World.init "photo.png\n".toList)).1 = .ok 0 :=
  ⟨rfl, rfl, rfl,
    (load_and_display_succeeds fixture "photo.png" "photo.png" rfl rfl).2
      "photo.png\n".toList rfl⟩

/-- C4: when standard input holds a non-whitespace character, the one path handed to the
`Image` constructor is the first whitespace-delimited token of the input, unchanged: the
input is leading whitespace, then the token (not empty, free of whitespace), then a rest that
is empty or starts with whitespace. -/
theorem constructor_gets_first_token (lib : ImageLib ε H R) (input : List Char)
    (hne : ∃ c ∈ input, isspace c = false) :
    constructCalls (main lib (World.init input)).2.trace = [String.mk (firstToken input)] ∧
    firstToken input ≠ [] ∧ (∀ c ∈ firstToken input, isspace c = false) ∧
    ∃ pre post, input = pre ++ firstToken input ++ post ∧
      (∀ c ∈ pre, isspace c = true) ∧ (∀ c, post.head? = some c → isspace c = true) := by
  have htok := readString_token "" input hne
  have hd : input.dropWhile isspace ≠ [] := by
    obtain ⟨c, hc, hs⟩ := hne
    intro hnil
    rw [List.dropWhile_eq_nil_iff] at hnil
    have := hnil c hc
    simp [hs] at this
  refine ⟨?_, ?_, ?_, input.takeWhile isspace,
    (input.dropWhile isspace).dropWhile (fun c => !isspace c), ?_, ?_, ?_⟩
  · rw [main_snd]
    simp only [World.init, htok]
    cases hc : lib.construct (String.mk (firstToken input)) with
    | error e =>
      rw [LoadImage_construct_error lib _ _ e hc]
      simp [constructCalls]
    | ok h =>
      cases hdis : lib.display h with
      | error e =>
        rw [LoadImage_display_error lib _ _ h e hc hdis]
        simp [constructCalls]
      | ok u =>
        rw [LoadImage_ok lib _ _ h hc hdis]
        simp [constructCalls]
  · unfold firstToken
    cases hcs : input.dropWhile isspace with
    | nil => exact absurd hcs hd
    | cons c cs =>
      have hhead := List.head_dropWhile_not isspace input (by rw [hcs]; simp)
      simp only [hcs, List.head_cons] at hhead
      simp [List.takeWhile, hhead]
  · intro c hc
    have := List.mem_takeWhile_imp hc
    simpa using this
  · unfold firstToken
    rw [List.append_assoc, List.takeWhile_append_dropWhile, List.takeWhile_append_dropWhile]
  · intro c hc
    exact List.mem_takeWhile_imp hc
  · intro c hc
    cases hps : (input.dropWhile isspace).dropWhile (fun c => !isspace c) with
    | nil => simp [hps] at hc
    | cons a as =>
      have hhead := List.head_dropWhile_not (fun c => !isspace c)
        (input.dropWhile isspace) (by rw [hps]; simp)
      simp only [hps, List.head_cons] at hhead
      simp only [hps, List.head?_cons, Option.some.injEq] at hc
      subst hc
      simpa using hhead

theorem constructor_gets_first_token_witness :
    (∃ c ∈ "  photo.png extra\n".toList, isspace c = false) ∧
    firstToken "  photo.png extra\n".toList = "photo.png".toList ∧
    constructCalls (main fixture (World.init "  photo.png extra\n".toList)).2.trace
      = [String.mk (firstToken "  photo.png extra\n".toList)] :=
  ⟨⟨'p', by decide, by decide⟩, by decide,
    (constructor_gets_first_token fixture "  photo.png extra\n".toList
      ⟨'p', by decide, by decide⟩).1⟩

/-- C5: when constructing an `Image` from `P` throws `e`, `LoadImage P` ends with the same
`e`, and `main` reading the token `P` ends with the same `e`: nothing catches or translates
it. -/
theorem load_error_propagates (lib : ImageLib ε H R) (P : String) (e : ε)
    (hfail : lib.construct P = .error e) :
    (∀ w : World H R, (LoadImage lib P w).1 = .error e) ∧
    (∀ input : List Char, (readString "" input).1 = P →
      (main lib (World.init input)).1 = .error e) := by
  refine ⟨fun w => ?_, fun input htok => ?_⟩
  · rw [LoadImage_construct_error lib P w e hfail]
  · rw [main_fst]
    simp only [World.init, htok]
    rw [LoadImage_construct_error lib P _ e hfail]

theorem load_error_propagates_witness :
    fixture.construct "missing.jpg" = .error LoadError.loadError ∧
    (readString "" "missing.jpg".toList).1 = "missing.jpg" ∧
    (main fixture (World.init "missing.jpg".toList)).1 = .error LoadError.loadError :=
  ⟨rfl, rfl,
    (load_error_propagates fixture "missing.jpg" LoadError.loadError rfl).2
      "missing.jpg".toList rfl⟩

/-- C6, as stated, fails: on the input `missing.jpg`, whose load fails, `main` does not
return 0; the error leaves `main`. -/
theorem main_not_zero_on_load_failure :
    (main fixture (World.init "missing.jpg\n".toList)).1 = .error LoadError.loadError ∧
    (main fixture (World.init "missing.jpg\n".toList)).1 ≠ .ok 0 :=
  ⟨rfl, fun h => by cases h⟩

/-- C6, amended: `main` returns a value exactly when construction and display both succeed,
and that value is 0, the only exit code `main.cc` defines; when construction or display
throws `e`, `main` returns nothing and `e` leaves it. -/
theorem main_returns_only_zero (lib : ImageLib ε H R) (input : List Char) :
    (∀ v : Int, (main lib (World.init input)).1 = .ok v ↔
      (v = 0 ∧ ∃ h, lib.construct (readString "" input).1 = .ok h ∧ lib.display h = .ok ())) ∧
    (∀ e : ε, (main lib (World.init input)).1 = .error e ↔
      (lib.construct (readString "" input).1 = .error e ∨
        ∃ h, lib.construct (readString "" input).1 = .ok h ∧ lib.display h = .error e)) := by
  rw [main_fst]
  simp only [World.init]
  cases hc : lib.construct (readString "" input).1 with
  | error e =>
    rw [LoadImage_construct_error lib _ _ e hc]
    simp
  | ok h =>
    cases hd : lib.display h with
    | error e =>
      rw [LoadImage_display_error lib _ _ h e hc hd]
      simp [hd]
    | ok u =>
      rw [LoadImage_ok lib _ _ h hc hd]
      simp [hd, eq_comm]

/-- C8: in a run of `main` whose construction succeeds with the handle `h`, the events are
exactly the prompt write, the read of the token, the construction from that token and the
`Display` call on `h`, in this order. -/
theorem one_load_and_show_cycle (lib : ImageLib ε H R) (input : List Char) (h : H)
    (hc : lib.construct (readString "" input).1 = .ok h) :
    (main lib (World.init input)).2.trace =
      [Event.write prompt, Event.read (readString "" input).1,
        Event.construct (readString "" input).1, Event.display h] := by
  rw [main_snd]
  simp only [World.init]
  cases hd : lib.display h with
  | error e =>
    rw [LoadImage_display_error lib _ _ h e hc hd]
    simp
  | ok u =>
    rw [LoadImage_ok lib _ _ h hc hd]
    simp

theorem one_load_and_show_cycle_witness :
    fixture.construct (readString "" "photo.png\n".toList).1 = .ok "photo.png" ∧
    (main fixture (World.init "photo.png\n".toList)).2.trace =
      [Event.write prompt, Event.read "photo.png",
        Event.construct "photo.png", Event.display "photo.png"] :=
  ⟨rfl, one_load_and_show_cycle fixture "photo.png\n".toList "photo.png" rfl⟩

/-- C9: when standard input holds no token (empty or whitespace only), the filename stays
the empty string and `main` still calls `LoadImage`: the one construction is from the empty
string, and `main` ends as that call of `LoadImage` ends. -/
theorem blank_input_loads_empty_filename (lib : ImageLib ε H R) (input : List Char)
    (hblank : ∀ c ∈ input, isspace c = true) :
    (readString "" input).1 = "" ∧
    constructCalls (main lib (World.init input)).2.trace = [""] ∧
    (∃ rest, (main lib (World.init input)).2.trace =
      Event.write prompt :: Event.read "" :: Event.construct "" :: rest) ∧
    (∀ e, lib.construct "" = .error e → (main lib (World.init input)).1 = .error e) := by
  have hrs := readString_blank "" input hblank
  refine ⟨by rw [hrs], ?_, ?_, ?_⟩
  · rw [main_snd]
    simp only [World.init, hrs]
    cases hc : lib.construct "" with
    | error e =>
      rw [LoadImage_construct_error lib _ _ e hc]
      simp [constructCalls]
    | ok h =>
      cases hd : lib.display h with
      | error e =>
        rw [LoadImage_display_error lib _ _ h e hc hd]
        simp [constructCalls]
      | ok u =>
        rw [LoadImage_ok lib _ _ h hc hd]
        simp [constructCalls]
  · rw [main_snd]
    simp only [World.init, hrs]
    cases hc : lib.construct "" with
    | error e =>
      rw [LoadImage_construct_error lib _ _ e hc]
      exact ⟨[], by simp⟩
    | ok h =>
      cases hd : lib.display h with
      | error e =>
        rw [LoadImage_display_error lib _ _ h e hc hd]
        exact ⟨[Event.display h], by simp⟩
      | ok u =>
        rw [LoadImage_ok lib _ _ h hc hd]
        exact ⟨[Event.display h], by simp⟩
  · intro e hc
    rw [main_fst]
    simp only [World.init, hrs]
    rw [LoadImage_construct_error lib _ _ e hc]

theorem blank_input_loads_empty_filename_witness :
    (∀ c ∈ " \n".toList, isspace c = true) ∧
    constructCalls (main fixture (World.init " \n".toList)).2.trace = [""] :=
  ⟨by decide, (blank_input_loads_empty_filename fixture " \n".toList (by decide)).2.1⟩

/-- C10: whatever the input and whatever construction and display do, the bytes `main` and
`LoadImage` have written when the run ends are the prompt, written by one write: `LoadImage`
writes nothing, and `main` writes nothing after the prompt. -/
theorem program_output_is_the_prompt (lib : ImageLib ε H R) (input : List Char) :
    (main lib (World.init input)).2.out = prompt ∧
    writeCalls (main lib (World.init input)).2.trace = [prompt] ∧
    (∀ (P : String) (w : World H R), (LoadImage lib P w).2.out = w.out ∧
      writeCalls (LoadImage lib P w).2.trace = writeCalls w.trace) := by
  have hL : ∀ (P : String) (w : World H R), (LoadImage lib P w).2.out = w.out ∧
      writeCalls (LoadImage lib P w).2.trace = writeCalls w.trace := by
    intro P w
    cases hc : lib.construct P with
    | error e =>
      rw [LoadImage_construct_error lib P _ e hc]
      simp [writeCalls_append, writeCalls]
    | ok h =>
      cases hd : lib.display h with
      | error e =>
        rw [LoadImage_display_error lib P _ h e hc hd]
        simp [writeCalls_append, writeCalls]
      | ok u =>
        rw [LoadImage_ok lib P _ h hc hd]
        simp [writeCalls_append, writeCalls]
  refine ⟨?_, ?_, hL⟩
  · rw [main_snd, (hL _ _).1]
    rfl
  · rw [main_snd, (hL _ _).2]
    simp [World.init, writeCalls]

end Claims

end DynamicMemAllocDemo
